import Mathlib

/-!
Verification of the mkcoin signal-and-risk decision pipeline.

Shallow embedding of the core logic of the repository:
- `src/strategy/moving_average.py` (candle-series builder, moving-average
  engine, crossover signal detector),
- `src/risk/risk_manager.py` (risk gate),
- `src/main.py` (trade decision orchestrator).

Prices and sizes are modelled as rationals (`ℚ`); the Python source uses
floats but every claim under scrutiny concerns ordering and exact
arithmetic identities that are float-representable at the tested points.
Candle series are modelled as lists of closes ordered oldest-first, which
matches the pandas DataFrame ordering after the ascending sort on
`openTime`.
-/

namespace Mkcoin

/-- Order side, the values `"BUY"` / `"SELL"` of the Python source. -/
inductive Side
  | buy
  | sell
deriving DecidableEq, Repr

/-- A trading signal: `some side` for BUY/SELL, `none` for the Python `None`. -/
abbrev Signal := Option Side

/-- Crossover signal detector, the decision of
`MovingAverageStrategy.get_signal` (moving_average.py lines 156-169):
BUY when `prev_short_ma <= prev_long_ma and short_ma > long_ma`,
otherwise SELL when `prev_short_ma >= prev_long_ma and short_ma < long_ma`,
otherwise no signal. -/
def detect (prev_short prev_long cur_short cur_long : ℚ) : Signal :=
  if prev_short ≤ prev_long ∧ cur_short > cur_long then some Side.buy
  else if prev_short ≥ prev_long ∧ cur_short < cur_long then some Side.sell
  else none

/-- Mean as `np.mean` computes it on a nonempty slice: sum divided by the
length of the slice itself. -/
def npMean (xs : List ℚ) : ℚ := xs.sum / (xs.length : ℚ)

/-- The Python slice `closes[-w:]`: the last `w` entries (the whole list
when it is shorter than `w`). -/
def lastSlice (xs : List ℚ) (w : Nat) : List ℚ := xs.drop (xs.length - w)

/-- The Python slice `closes[-(w+1):-1]`: the `w` entries ending one before
the final one. -/
def lastSliceExclFinal (xs : List ℚ) (w : Nat) : List ℚ :=
  (xs.drop (xs.length - (w + 1))).dropLast

/-- MovingAverageStrategy.calculate_moving_averages (moving_average.py
lines 99-119): `(None, None)` when the frame is empty or has fewer than
`long_period` rows, otherwise the `np.mean` of the last `short_period`
and last `long_period` closes. -/
def calculate_moving_averages (short_period long_period : Nat) (closes : List ℚ) :
    Option ℚ × Option ℚ :=
  if closes.length = 0 ∨ closes.length < long_period then (none, none)
  else (some (npMean (lastSlice closes short_period)),
        some (npMean (lastSlice closes long_period)))

/-- The previous moving-average pair of MovingAverageStrategy.get_signal
(moving_average.py lines 143-149): when at least `long_period + 1` closes
exist, the means of `closes[-(w+1):-1]` for the two windows; otherwise the
current pair `(short_ma, long_ma)` is reused unchanged. -/
def prev_moving_averages (short_period long_period : Nat) (closes : List ℚ)
    (short_ma long_ma : ℚ) : ℚ × ℚ :=
  if long_period + 1 ≤ closes.length then
    (npMean (lastSliceExclFinal closes short_period),
     npMean (lastSliceExclFinal closes long_period))
  else (short_ma, long_ma)

/-- Spec-side definition, from the spec's words: "the last `short_window`
closes" read literally as the final `w` elements of the series. -/
def specLastWindow (xs : List ℚ) (w : Nat) : List ℚ := (xs.reverse.take w).reverse

/-- Spec-side definition: "the unweighted arithmetic mean of the last `w`
closes" — sum of the last `w` closes divided by `w`. -/
def specWindowMean (xs : List ℚ) (w : Nat) : ℚ := (specLastWindow xs w).sum / (w : ℚ)

/-- The source slice `closes[-w:]` is exactly the spec's "last w closes". -/
lemma lastSlice_eq_specLastWindow (xs : List ℚ) (w : Nat) :
    lastSlice xs w = specLastWindow xs w := by
  unfold lastSlice specLastWindow
  rw [List.reverse_take, List.reverse_reverse, List.length_reverse]

lemma length_lastSlice (xs : List ℚ) (w : Nat) (h : w ≤ xs.length) :
    (lastSlice xs w).length = w := by
  unfold lastSlice
  rw [List.length_drop]
  omega

/-- On a window that fits, the `np.mean` of the source slice is the spec's
unweighted mean of the last `w` closes. -/
lemma npMean_lastSlice (xs : List ℚ) (w : Nat) (h : w ≤ xs.length) :
    npMean (lastSlice xs w) = specWindowMean xs w := by
  unfold npMean specWindowMean
  rw [length_lastSlice xs w h, lastSlice_eq_specLastWindow]

lemma dropLast_drop_comm (l : List ℚ) (n : Nat) :
    (l.drop n).dropLast = l.dropLast.drop n := by
  rw [List.dropLast_eq_take, List.dropLast_eq_take, List.length_drop]
  rw [List.drop_take]
  congr 1
  omega

/-- The source slice `closes[-(w+1):-1]` is the last-`w` slice of the series
with its final element excluded. -/
lemma lastSliceExclFinal_eq (xs : List ℚ) (w : Nat) (h : w + 1 ≤ xs.length) :
    lastSliceExclFinal xs w = lastSlice xs.dropLast w := by
  unfold lastSliceExclFinal lastSlice
  rw [dropLast_drop_comm, List.length_dropLast]
  congr 1
  omega

/-- Claim C4: with fewer than `long_period` closes the engine returns the
sentinel `(none, none)`; otherwise it returns exactly the unweighted
arithmetic means of the last `short_period` and last `long_period` closes. -/
theorem calculate_moving_averages_spec (short_period long_period : Nat) (closes : List ℚ)
    (hs : 0 < short_period) (hsl : short_period ≤ long_period) :
    (closes.length < long_period →
      calculate_moving_averages short_period long_period closes = (none, none)) ∧
    (long_period ≤ closes.length →
      calculate_moving_averages short_period long_period closes =
        (some (specWindowMean closes short_period),
         some (specWindowMean closes long_period))) := by
  constructor
  · intro h
    unfold calculate_moving_averages
    simp [h]
  · intro h
    unfold calculate_moving_averages
    have h0 : ¬(closes.length = 0 ∨ closes.length < long_period) := by omega
    rw [if_neg h0]
    rw [npMean_lastSlice closes short_period (le_trans hsl h),
        npMean_lastSlice closes long_period h]

/-- Witness for C4: with windows 1 and 2 on the series `[4, 10]` the engine
returns the means of the last 1 and last 2 closes, namely `(10, 7)`. -/
theorem calculate_moving_averages_spec_witness :
    calculate_moving_averages 1 2 [(4 : ℚ), 10] = (some 10, some 7) := by
  have h := (calculate_moving_averages_spec 1 2 [(4 : ℚ), 10]
    (by norm_num) (by norm_num)).2 (by simp)
  rw [h]
  norm_num [specWindowMean, specLastWindow]

/-- Claim C7: with fewer than `long_period + 1` closes the previous pair is
the current pair unchanged; with at least `long_period + 1` closes it is
the pair of window means recomputed on the series with its final element
excluded. -/
theorem prev_moving_averages_spec (short_period long_period : Nat) (closes : List ℚ)
    (short_ma long_ma : ℚ) (hs : 0 < short_period) (hsl : short_period ≤ long_period) :
    (closes.length < long_period + 1 →
      prev_moving_averages short_period long_period closes short_ma long_ma =
        (short_ma, long_ma)) ∧
    (long_period + 1 ≤ closes.length →
      prev_moving_averages short_period long_period closes short_ma long_ma =
        (specWindowMean closes.dropLast short_period,
         specWindowMean closes.dropLast long_period)) := by
  constructor
  · intro h
    unfold prev_moving_averages
    rw [if_neg (by omega)]
  · intro h
    unfold prev_moving_averages
    rw [if_pos h]
    have hlen : closes.dropLast.length = closes.length - 1 := List.length_dropLast closes
    rw [lastSliceExclFinal_eq closes short_period (by omega),
        lastSliceExclFinal_eq closes long_period (by omega),
        npMean_lastSlice closes.dropLast short_period (by omega),
        npMean_lastSlice closes.dropLast long_period (by omega)]

/-- Witness for C7: on the three-close series `[4, 10, 100]` with windows 1
and 2, the previous pair is the means over `[4, 10]`, namely `(10, 7)`, and
on the too-short series `[4, 10]` the passed-in current pair is returned. -/
theorem prev_moving_averages_spec_witness :
    prev_moving_averages 1 2 [(4 : ℚ), 10, 100] 3 5 = (10, 7) ∧
    prev_moving_averages 1 2 [(4 : ℚ), 10] 3 5 = (3, 5) := by
  constructor
  · have h := (prev_moving_averages_spec 1 2 [(4 : ℚ), 10, 100] 3 5
      (by norm_num) (by norm_num)).2 (by simp)
    rw [h]
    norm_num [specWindowMean, specLastWindow]
  · exact (prev_moving_averages_spec 1 2 [(4 : ℚ), 10] 3 5
      (by norm_num) (by norm_num)).1 (by simp)

/-- Claim C1: for all four inputs the detector returns BUY iff
`prev_short <= prev_long` and `cur_short > cur_long`, SELL iff
`prev_short >= prev_long` and `cur_short < cur_long`, and NONE otherwise;
on the exact tie `prev_short = prev_long` it returns BUY when
`cur_short > cur_long` and SELL when `cur_short < cur_long`. -/
theorem detect_characterization (ps pl cs cl : ℚ) :
    (detect ps pl cs cl = some Side.buy ↔ ps ≤ pl ∧ cs > cl) ∧
    (detect ps pl cs cl = some Side.sell ↔ ps ≥ pl ∧ cs < cl) ∧
    (detect ps pl cs cl = none ↔ ¬(ps ≤ pl ∧ cs > cl) ∧ ¬(ps ≥ pl ∧ cs < cl)) ∧
    (ps = pl → cs > cl → detect ps pl cs cl = some Side.buy) ∧
    (ps = pl → cs < cl → detect ps pl cs cl = some Side.sell) := by
  unfold detect
  by_cases h1 : ps ≤ pl ∧ cs > cl
  · simp only [h1, if_true]
    refine ⟨by simp, ?_, by simp, fun _ _ => rfl, fun he hlt => ?_⟩
    · constructor
      · intro h; exact absurd h (by simp)
      · rintro ⟨-, hlt⟩; exact absurd (lt_trans hlt h1.2) (lt_irrefl cs)
    · exact absurd (lt_trans hlt h1.2) (lt_irrefl cs)
  · simp only [h1, if_false]
    by_cases h2 : ps ≥ pl ∧ cs < cl
    · simp only [h2, if_true]
      refine ⟨by simp, by simp, by simp [h1, h2], fun he hgt => ?_, fun _ _ => rfl⟩
      · exact absurd (lt_trans h2.2 hgt) (lt_irrefl cs)
    · simp only [h2, if_false]
      refine ⟨by simp, by simp, by simp [h1, h2], fun he hgt => ?_, fun he hlt => ?_⟩
      · exact absurd ⟨le_of_eq he, hgt⟩ h1
      · exact absurd ⟨ge_of_eq he, hlt⟩ h2

/-- Witness for C1: the tie boundary at concrete inputs, `prev_short =
prev_long = 5`, `cur_short = 6 > cur_long = 4` yields BUY. -/
theorem detect_characterization_witness :
    detect 5 5 6 4 = some Side.buy :=
  (detect_characterization 5 5 6 4).2.2.2.1 rfl (by norm_num)

/-- A trade record as RiskManager.record_trade builds it (risk_manager.py
lines 194-219): side, size, price and optional order id (the timestamp is
wall-clock and outside the model). -/
structure Trade where
  side : Side
  size : ℚ
  price : ℚ
  order_id : Option Nat
deriving DecidableEq, Repr

/-- The mutable session state of RiskManager (risk_manager.py lines 46-49). -/
structure RiskState where
  reversal_count : Nat
  last_order_side : Option Side
  trade_history : List Trade
deriving DecidableEq, Repr

/-- The state a freshly constructed RiskManager starts in. -/
def freshRiskState : RiskState := ⟨0, none, []⟩

/-- The directional loss of RiskManager.check_stop_loss (risk_manager.py
lines 64-69): `(entry_price - current_price) * size` for BUY and
`(current_price - entry_price) * size` for SELL. -/
def loss_raw (current_price entry_price : ℚ) (side : Side) (size : ℚ) : ℚ :=
  match side with
  | Side.buy => (entry_price - current_price) * size
  | Side.sell => (current_price - entry_price) * size

/-- Line 72 of risk_manager.py: `loss * current_price` — the source writes
the same expression on both branches of its conditional. -/
def loss_jpy (current_price entry_price : ℚ) (side : Side) (size : ℚ) : ℚ :=
  loss_raw current_price entry_price side size * current_price

/-- RiskManager.check_stop_loss (risk_manager.py lines 51-78): true iff
`loss_jpy >= stop_loss`. -/
def check_stop_loss (stop_loss current_price entry_price : ℚ) (side : Side) (size : ℚ) :
    Bool :=
  decide (loss_jpy current_price entry_price side size ≥ stop_loss)

/-- The directional profit of RiskManager.check_take_profit
(risk_manager.py lines 93-98), the side-reversed mirror of the loss. -/
def profit_raw (current_price entry_price : ℚ) (side : Side) (size : ℚ) : ℚ :=
  match side with
  | Side.buy => (current_price - entry_price) * size
  | Side.sell => (entry_price - current_price) * size

/-- Line 101 of risk_manager.py: `profit * current_price` on both branches. -/
def profit_jpy (current_price entry_price : ℚ) (side : Side) (size : ℚ) : ℚ :=
  profit_raw current_price entry_price side size * current_price

/-- RiskManager.check_take_profit (risk_manager.py lines 80-107): true iff
`profit_jpy >= take_profit`. -/
def check_take_profit (take_profit current_price entry_price : ℚ) (side : Side) (size : ℚ) :
    Bool :=
  decide (profit_jpy current_price entry_price side size ≥ take_profit)

/-- RiskManager.check_position_size (risk_manager.py lines 109-126):
false iff the requested size exceeds the maximum. -/
def check_position_size (max_position_size size : ℚ) : Bool :=
  decide (¬ size > max_position_size)

/-- RiskManager.check_consecutive_errors (risk_manager.py lines 157-173):
false iff the collaborator's live error counter has reached the maximum. -/
def check_consecutive_errors (max_consecutive_errors error_count : Nat) : Bool :=
  decide (¬ error_count ≥ max_consecutive_errors)

/-- RiskManager.check_reversal_count (risk_manager.py lines 128-155):
increment `reversal_count` when the last order side is set and differs
from `side`, reset it to 0 otherwise, then set `last_order_side := side`,
and return false iff the updated count has reached the maximum. -/
def check_reversal_count (max_reversal_count : Nat) (st : RiskState) (side : Side) :
    Bool × RiskState :=
  let rc : Nat :=
    match st.last_order_side with
    | some last => if last ≠ side then st.reversal_count + 1 else 0
    | none => 0
  let st2 : RiskState := { st with reversal_count := rc, last_order_side := some side }
  (decide (¬ rc ≥ max_reversal_count), st2)

/-- RiskManager.record_trade (risk_manager.py lines 194-219): append one
trade to the in-process history. -/
def record_trade (st : RiskState) (side : Side) (size price : ℚ) (order_id : Option Nat) :
    RiskState :=
  { st with trade_history := st.trade_history ++ [⟨side, size, price, order_id⟩] }

/-- Successive results of check_reversal_count along a list of sides:
each element is the returned boolean and the post-call reversal count. -/
def reversal_trajectory (max_reversal_count : Nat) (st : RiskState) :
    List Side → List (Bool × Nat)
  | [] => []
  | s :: rest =>
    let r := check_reversal_count max_reversal_count st s
    (r.1, r.2.reversal_count) :: reversal_trajectory max_reversal_count r.2 rest

/-- Claim C2: for each side, check_stop_loss is true iff the directional
loss times `current_price` reaches `stop_loss`, check_take_profit is true
iff the side-reversed directional profit times `current_price` reaches
`take_profit`; and on BUY entry=5,000,000 current=4,900,000 size=0.01 the
computed loss_jpy is 4,900,000,000, triggering stop_loss=10,000. -/
theorem check_stop_take_spec (sl tp current entry size : ℚ) :
    (check_stop_loss sl current entry Side.buy size = true ↔
      (entry - current) * size * current ≥ sl) ∧
    (check_stop_loss sl current entry Side.sell size = true ↔
      (current - entry) * size * current ≥ sl) ∧
    (check_take_profit tp current entry Side.buy size = true ↔
      (current - entry) * size * current ≥ tp) ∧
    (check_take_profit tp current entry Side.sell size = true ↔
      (entry - current) * size * current ≥ tp) ∧
    (loss_jpy 4900000 5000000 Side.buy (1/100) = 4900000000 ∧
      check_stop_loss 10000 4900000 5000000 Side.buy (1/100) = true) := by
  refine ⟨?_, ?_, ?_, ?_, ?_, ?_⟩
  · simp [check_stop_loss, loss_jpy, loss_raw]
  · simp [check_stop_loss, loss_jpy, loss_raw]
  · simp [check_take_profit, profit_jpy, profit_raw]
  · simp [check_take_profit, profit_jpy, profit_raw]
  · norm_num [loss_jpy, loss_raw]
  · norm_num [check_stop_loss, loss_jpy, loss_raw]

/-- Claim C9: on identical inputs the computed profit_jpy is exactly the
negation of the computed loss_jpy, so with positive thresholds
check_stop_loss and check_take_profit can never both be true. -/
theorem stop_take_exclusive (sl tp current entry size : ℚ) (side : Side)
    (hsl : 0 < sl) (htp : 0 < tp) :
    profit_jpy current entry side size = - loss_jpy current entry side size ∧
    ¬(check_stop_loss sl current entry side size = true ∧
      check_take_profit tp current entry side size = true) := by
  have hneg : profit_jpy current entry side size = - loss_jpy current entry side size := by
    cases side <;> simp [profit_jpy, loss_jpy, profit_raw, loss_raw] <;> ring
  refine ⟨hneg, ?_⟩
  rintro ⟨h1, h2⟩
  rw [check_stop_loss, decide_eq_true_iff] at h1
  rw [check_take_profit, decide_eq_true_iff, hneg] at h2
  linarith

/-- Witness for C9: at thresholds 1, current price 1, entry 2, size 1, BUY. -/
theorem stop_take_exclusive_witness :
    profit_jpy 1 2 Side.buy 1 = - loss_jpy 1 2 Side.buy 1 ∧
    ¬(check_stop_loss 1 1 2 Side.buy 1 = true ∧
      check_take_profit 1 1 2 Side.buy 1 = true) :=
  stop_take_exclusive 1 1 1 2 1 Side.buy (by norm_num) (by norm_num)

/-- Claim C3: check_reversal_count increments the count when the recorded
last side is set and differs, resets it to 0 otherwise, always records
`side` as the last order side (also on vetoing calls), and returns false
iff the post-update count has reached the maximum; from fresh state the
sequence [BUY, BUY, SELL, BUY, SELL, BUY] with max 4 produces counts
[0, 0, 1, 2, 3, 4] with the sixth call returning false. -/
theorem check_reversal_count_spec (m : Nat) (st : RiskState) (side : Side) :
    ((∃ last, st.last_order_side = some last ∧ last ≠ side) →
      (check_reversal_count m st side).2.reversal_count = st.reversal_count + 1) ∧
    ((st.last_order_side = none ∨ st.last_order_side = some side) →
      (check_reversal_count m st side).2.reversal_count = 0) ∧
    (check_reversal_count m st side).2.last_order_side = some side ∧
    ((check_reversal_count m st side).1 = false ↔
      m ≤ (check_reversal_count m st side).2.reversal_count) ∧
    reversal_trajectory 4 freshRiskState
        [Side.buy, Side.buy, Side.sell, Side.buy, Side.sell, Side.buy] =
      [(true, 0), (true, 0), (true, 1), (true, 2), (true, 3), (false, 4)] := by
  refine ⟨?_, ?_, ?_, ?_, by decide⟩
  · rintro ⟨last, hlast, hne⟩
    simp [check_reversal_count, hlast, hne]
  · rintro (h | h) <;> simp [check_reversal_count, h]
  · simp [check_reversal_count]
  · simp [check_reversal_count]

/-- Witness for C3: one reversal from BUY to SELL increments the count. -/
theorem check_reversal_count_spec_witness :
    (check_reversal_count 1 ⟨0, some Side.buy, []⟩ Side.sell).2.reversal_count = 0 + 1 ∧
    (check_reversal_count 1 ⟨0, some Side.buy, []⟩ Side.sell).2.last_order_side =
      some Side.sell :=
  ⟨(check_reversal_count_spec 1 ⟨0, some Side.buy, []⟩ Side.sell).1
      ⟨Side.buy, rfl, by decide⟩,
    (check_reversal_count_spec 1 ⟨0, some Side.buy, []⟩ Side.sell).2.2.1⟩

/-- An open position as read from the exchange (main.py lines 185-189). -/
structure Position where
  positionId : Nat
  side : Side
  size : ℚ
  price : ℚ
deriving DecidableEq, Repr

/-- Why a position was closed by check_existing_positions. -/
inductive CloseReason
  | stopLossHit
  | takeProfitHit
deriving DecidableEq, Repr

/-- The result of the place_order collaborator call: an order id on
success, or the message of the raised exception. -/
inductive OrderOutcome
  | success (order_id : Option Nat)
  | failure (msg : String)
deriving DecidableEq, Repr

/-- One row of the CSV trade history written by
TradingBot.save_trade_history (main.py lines 86-105); the wall-clock
timestamp field is outside the model. -/
structure CsvRow where
  side : Side
  size : ℚ
  price : ℚ
  order_id : Option Nat
  signal : String
  status : String
  error_message : String
deriving DecidableEq, Repr

/-- The close order is placed in the direction opposite to the position
(main.py line 118). -/
def opposite : Side → Side
  | Side.buy => Side.sell
  | Side.sell => Side.buy

/-- The observable effects of TradingBot.close_position: whether the
place_order call was made, the CSV rows written, and the risk state after
any record_trade call. -/
structure CloseEffects where
  order_attempted : Bool
  csv_rows : List CsvRow
  state : RiskState
deriving DecidableEq, Repr

/-- TradingBot.close_position (main.py lines 107-170): fetch the current
price; when that returns `None`, log and return with no order, no CSV row
and no in-process trade record; otherwise place the opposite-side market
order and record a CLOSED row (or, when place_order raises, an
ERROR_CLOSE row with price 0 and no record_trade call). -/
def close_position (position_id : Nat) (side : Side) (size : ℚ)
    (fetched_price : Option ℚ) (order_result : OrderOutcome) (st : RiskState) :
    CloseEffects :=
  match fetched_price with
  | none => ⟨false, [], st⟩
  | some current_price =>
    match order_result with
    | OrderOutcome.success order_id =>
      ⟨true,
        [⟨opposite side, size, current_price, order_id, "AUTO_CLOSE", "CLOSED", ""⟩],
        record_trade st (opposite side) size current_price order_id⟩
    | OrderOutcome.failure msg =>
      ⟨true, [⟨side, size, 0, none, "AUTO_CLOSE", "ERROR_CLOSE", msg⟩], st⟩

/-- The per-position decision of TradingBot.check_existing_positions
(main.py lines 185-203): stop-loss is evaluated first; when it is true the
position is closed and the take-profit check for that position is skipped
(the loop body issues `continue`); otherwise take-profit may close it. -/
def position_close_decision (stop_loss take_profit current_price : ℚ) (p : Position) :
    Option CloseReason :=
  if check_stop_loss stop_loss current_price p.price p.side p.size then
    some CloseReason.stopLossHit
  else if check_take_profit take_profit current_price p.price p.side p.size then
    some CloseReason.takeProfitHit
  else none

/-- TradingBot.check_existing_positions (main.py lines 172-206): with no
positions it returns before any price fetch; otherwise get_current_price
is called once and that single result is shared by every position's
stop-loss/take-profit evaluation. The first component counts the
get_current_price calls made by this function itself (the later close
orders fetch their own price inside close_position, modelled separately).
The second component lists the close actions, at most one per position. -/
def check_existing_positions (stop_loss take_profit : ℚ) (positions : List Position)
    (fetched_price : Option ℚ) : Nat × List (Position × CloseReason) :=
  if positions.isEmpty then (0, [])
  else
    match fetched_price with
    | none => (1, [])
    | some p =>
      (1, positions.filterMap fun pos =>
        (position_close_decision stop_loss take_profit p pos).map fun r => (pos, r))

/-- How one call of TradingBot.execute_trade ends. `fatalExit` models
`sys.exit(1)`: the whole run terminates with a non-zero exit code. The
two veto outcomes and `noPrice` are plain returns: the run continues. -/
inductive ExecOutcome
  | fatalExit
  | vetoReversal
  | vetoPositionSize
  | noPrice
  | orderPlaced (price : ℚ) (order_id : Option Nat)
  | orderFailed (msg : String)
deriving DecidableEq, Repr

/-- The observable effects of one TradingBot.execute_trade call. -/
structure ExecResult where
  outcome : ExecOutcome
  csv_rows : List CsvRow
  state : RiskState
deriving DecidableEq, Repr

/-- TradingBot.execute_trade (main.py lines 208-287): gate through
check_consecutive_errors (failure exits the process), then
check_reversal_count (failure returns), then check_position_size (failure
returns); only then fetch the price (a `None` fetch returns) and place
the order, recording an ORDERED row and a trade on success or an ERROR
row when place_order raises. -/
def execute_trade (max_consecutive_errors max_reversal_count : Nat)
    (max_position_size amount : ℚ) (error_count : Nat)
    (fetched_price : Option ℚ) (order_result : OrderOutcome)
    (st : RiskState) (signal : Side) : ExecResult :=
  if check_consecutive_errors max_consecutive_errors error_count = false then
    ⟨ExecOutcome.fatalExit, [], st⟩
  else
    let r := check_reversal_count max_reversal_count st signal
    if r.1 = false then ⟨ExecOutcome.vetoReversal, [], r.2⟩
    else if check_position_size max_position_size amount = false then
      ⟨ExecOutcome.vetoPositionSize, [], r.2⟩
    else
      match fetched_price with
      | none => ⟨ExecOutcome.noPrice, [], r.2⟩
      | some current_price =>
        match order_result with
        | OrderOutcome.success order_id =>
          ⟨ExecOutcome.orderPlaced current_price order_id,
            [⟨signal, amount, current_price, order_id,
              "MOVING_AVERAGE_CROSS", "ORDERED", ""⟩],
            record_trade r.2 signal amount current_price order_id⟩
        | OrderOutcome.failure msg =>
          ⟨ExecOutcome.orderFailed msg,
            [⟨signal, amount, 0, none, "MOVING_AVERAGE_CROSS", "ERROR", msg⟩],
            r.2⟩

/-- An outcome in which the place_order collaborator was invoked. -/
def orderAttempted : ExecOutcome → Prop
  | ExecOutcome.orderPlaced _ _ => True
  | ExecOutcome.orderFailed _ => True
  | _ => False

/-- Claim C5: the gates run in the order consecutive-errors, reversal,
position-size. A consecutive-errors failure ends the run with a non-zero
exit before the reversal gate can touch the state and no order is placed;
a reversal or position-size failure suppresses only this run's order and
the run continues; the order call happens only when all three gates pass. -/
theorem execute_trade_gates (mce mrc : Nat) (mps amt : ℚ) (ec : Nat)
    (price : Option ℚ) (ores : OrderOutcome) (st : RiskState) (signal : Side) :
    (check_consecutive_errors mce ec = false →
      execute_trade mce mrc mps amt ec price ores st signal =
        ⟨ExecOutcome.fatalExit, [], st⟩) ∧
    (check_consecutive_errors mce ec = true →
      (check_reversal_count mrc st signal).1 = false →
      execute_trade mce mrc mps amt ec price ores st signal =
        ⟨ExecOutcome.vetoReversal, [], (check_reversal_count mrc st signal).2⟩) ∧
    (check_consecutive_errors mce ec = true →
      (check_reversal_count mrc st signal).1 = true →
      check_position_size mps amt = false →
      execute_trade mce mrc mps amt ec price ores st signal =
        ⟨ExecOutcome.vetoPositionSize, [], (check_reversal_count mrc st signal).2⟩) ∧
    (orderAttempted (execute_trade mce mrc mps amt ec price ores st signal).outcome →
      check_consecutive_errors mce ec = true ∧
      (check_reversal_count mrc st signal).1 = true ∧
      check_position_size mps amt = true) := by
  refine ⟨?_, ?_, ?_, ?_⟩
  · intro h
    simp [execute_trade, h]
  · intro h1 h2
    simp [execute_trade, h1, h2]
  · intro h1 h2 h3
    simp [execute_trade, h1, h2, h3]
  · intro h
    by_cases h1 : check_consecutive_errors mce ec = false
    · simp [execute_trade, h1, orderAttempted] at h
    · rw [Bool.not_eq_false] at h1
      by_cases h2 : (check_reversal_count mrc st signal).1 = false
      · simp [execute_trade, h1, h2, orderAttempted] at h
      · rw [Bool.not_eq_false] at h2
        by_cases h3 : check_position_size mps amt = false
        · simp [execute_trade, h1, h2, h3, orderAttempted] at h
        · rw [Bool.not_eq_false] at h3
          exact ⟨h1, h2, h3⟩

/-- Witness for C5: with `max_consecutive_errors = 0` every error count
breaches the gate, so the run exits fatally from fresh state. -/
theorem execute_trade_gates_witness :
    execute_trade 0 5 (1/100) (1/1000) 0 none (OrderOutcome.success none)
        freshRiskState Side.buy =
      ⟨ExecOutcome.fatalExit, [], freshRiskState⟩ :=
  (execute_trade_gates 0 5 (1/100) (1/1000) 0 none (OrderOutcome.success none)
      freshRiskState Side.buy).1 (by decide)

/-- Every element of a filterMap built by pairing each input with a
successful decision projects back, on its first component, to a sublist of
the inputs: each input yields at most one output, in order. -/
lemma map_fst_filterMap_pair_sublist {α β : Type} (g : α → Option β) :
    ∀ l : List α,
      ((l.filterMap fun a => (g a).map fun b => (a, b)).map Prod.fst).Sublist l := by
  intro l
  induction l with
  | nil => simp
  | cons a l ih =>
    cases hg : g a with
    | none =>
      simp only [List.filterMap_cons, hg, Option.map_none]
      exact ih.cons a
    | some b =>
      simp only [List.filterMap_cons, hg, Option.map_some, List.map_cons]
      exact ih.cons₂ a

/-- Claim C6: with a nonempty position list the current price is fetched
exactly once by the existing-position check, every emitted close action is
the decision taken at that single shared price, the emitted actions cover
each position at most once (their projection is a sublist of the
positions), and a true stop-loss short-circuits: the decision is the
stop-loss close and take-profit is never consulted for that position. -/
theorem check_existing_positions_spec (sl tp : ℚ) (positions : List Position)
    (price : ℚ) (hne : positions ≠ []) :
    (check_existing_positions sl tp positions (some price)).1 = 1 ∧
    (((check_existing_positions sl tp positions (some price)).2.map Prod.fst).Sublist
      positions) ∧
    (∀ pos r, (pos, r) ∈ (check_existing_positions sl tp positions (some price)).2 →
      position_close_decision sl tp price pos = some r) ∧
    (∀ pos : Position, check_stop_loss sl price pos.price pos.side pos.size = true →
      position_close_decision sl tp price pos = some CloseReason.stopLossHit) := by
  have hemp : positions.isEmpty = false := by
    cases positions with
    | nil => exact absurd rfl hne
    | cons a l => rfl
  refine ⟨?_, ?_, ?_, ?_⟩
  · simp [check_existing_positions, hemp]
  · simpa [check_existing_positions, hemp] using
      map_fst_filterMap_pair_sublist (position_close_decision sl tp price) positions
  · intro pos r hmem
    simp only [check_existing_positions, hemp, Bool.false_eq_true, if_false,
      List.mem_filterMap] at hmem
    obtain ⟨a, ha, heq⟩ := hmem
    rw [Option.map_eq_some'] at heq
    obtain ⟨b, hb, heq2⟩ := heq
    injection heq2 with h1 h2
    subst h1
    subst h2
    exact hb
  · intro pos hsl
    simp [position_close_decision, hsl]

/-- Witness for C6: a single BUY position far under water at the shared
price 1 is closed by stop-loss, once. -/
theorem check_existing_positions_spec_witness :
    (check_existing_positions 1 1 [⟨7, Side.buy, 1, 100⟩] (some 1)).1 = 1 ∧
    (((check_existing_positions 1 1 [⟨7, Side.buy, 1, 100⟩] (some 1)).2.map
      Prod.fst).Sublist [⟨7, Side.buy, 1, 100⟩]) :=
  ⟨(check_existing_positions_spec 1 1 [⟨7, Side.buy, 1, 100⟩] 1 (by simp)).1,
    (check_existing_positions_spec 1 1 [⟨7, Side.buy, 1, 100⟩] 1 (by simp)).2.1⟩

/-- Claim C10: when the close-time price fetch returns `None`,
close_position places no order, writes no CSV row, and leaves the
in-process trade history untouched — the triggered position stays open
and the function returns normally. -/
theorem close_position_no_price (position_id : Nat) (side : Side) (size : ℚ)
    (order_result : OrderOutcome) (st : RiskState) :
    (close_position position_id side size none order_result st).order_attempted = false ∧
    (close_position position_id side size none order_result st).csv_rows = [] ∧
    (close_position position_id side size none order_result st).state = st :=
  ⟨rfl, rfl, rfl⟩

/-- A raw exchange candle record after the `pd.to_numeric` coercion pass:
`none` models a string field that failed to parse (NaN). -/
structure RawCandle where
  openTime : Option ℚ
  openPrice : Option ℚ
  high : Option ℚ
  low : Option ℚ
  close : Option ℚ
  volume : Option ℚ
deriving DecidableEq, Repr

/-- A candle row surviving the dropna pass of moving_average.py line 84
(the dropna subset omits volume, so a row with unparsed volume survives). -/
structure Candle where
  openTime : ℚ
  openPrice : ℚ
  high : ℚ
  low : ℚ
  close : ℚ
  volume : Option ℚ
deriving DecidableEq, Repr

/-- The coercion + dropna pass on one record (moving_average.py lines
76-84): the row is kept iff openTime, open, high, low and close all
parsed. -/
def coerceCandle (r : RawCandle) : Option Candle :=
  match r.openTime, r.openPrice, r.high, r.low, r.close with
  | some t, some o, some h, some l, some c => some ⟨t, o, h, l, c, r.volume⟩
  | _, _, _, _, _ => none

/-- The openTime key comparison of `sort_values` on moving_average.py
line 87. -/
def byOpenTime (a b : Candle) : Bool := decide (a.openTime ≤ b.openTime)

/-- MovingAverageStrategy._get_klines_data, post-fetch processing
(moving_average.py lines 72-93): coerce fields, drop unparseable rows,
sort ascending by openTime, and keep only the most recent `count` rows.
The source performs no de-duplication step. -/
def sorted_klines (raws : List RawCandle) : List Candle :=
  (raws.filterMap coerceCandle).mergeSort byOpenTime

/-- The truncation to the most recent `count` rows (moving_average.py
lines 90-91), applied to the sorted frame. -/
def get_klines_data (raws : List RawCandle) (count : Nat) : List Candle :=
  if count < (sorted_klines raws).length then
    (sorted_klines raws).drop ((sorted_klines raws).length - count)
  else sorted_klines raws

unseal List.merge List.mergeSort in
/-- Counterexample to claim C8: two well-formed records sharing
openTime 1 both survive into the series, so the output holds two candles
with the same open_time and its open_time sequence is not strictly
increasing — the builder never de-duplicates. -/
theorem get_klines_data_duplicate_counterexample :
    ((get_klines_data
        [⟨some 1, some 2, some 2, some 2, some 10, some 0⟩,
          ⟨some 1, some 2, some 2, some 2, some 20, some 0⟩] 100).map
      fun c => c.openTime) = [1, 1] ∧
    ¬ List.Pairwise (fun a b : ℚ => a < b)
      ((get_klines_data
        [⟨some 1, some 2, some 2, some 2, some 10, some 0⟩,
          ⟨some 1, some 2, some 2, some 2, some 20, some 0⟩] 100).map
        fun c => c.openTime) := by
  decide

/-- Claim C8 as amended: after coercion and the ascending sort by
open_time the series is non-decreasing in open_time, and when the
coerced rows fit in `count` the output is a permutation of all of them —
records with duplicate open_time values are all retained, none dropped. -/
theorem get_klines_data_sorted_no_dedup (raws : List RawCandle) (count : Nat) :
    List.Pairwise (fun a b => a.openTime ≤ b.openTime) (get_klines_data raws count) ∧
    ((raws.filterMap coerceCandle).length ≤ count →
      (get_klines_data raws count).Perm (raws.filterMap coerceCandle)) := by
  have hsort : (sorted_klines raws).Pairwise
      fun a b => a.openTime ≤ b.openTime := by
    have h : ((raws.filterMap coerceCandle).mergeSort byOpenTime).Pairwise
        fun a b => byOpenTime a b = true := by
      apply List.sorted_mergeSort
      · intro a b c hab hbc
        simp only [byOpenTime, decide_eq_true_eq] at *
        linarith
      · intro a b
        simp only [byOpenTime, Bool.or_eq_true, decide_eq_true_eq]
        exact le_total a.openTime b.openTime
    exact h.imp fun hab => by simpa [byOpenTime] using hab
  constructor
  · unfold get_klines_data
    split
    · exact List.Pairwise.sublist (List.drop_sublist _ _) hsort
    · exact hsort
  · intro hle
    unfold get_klines_data
    rw [if_neg (by rw [sorted_klines, List.length_mergeSort]; omega)]
    exact List.mergeSort_perm _ _

/-- Witness for the amended C8: on the duplicate-openTime input with a
large `count`, the output is a permutation of both coerced rows. -/
theorem get_klines_data_sorted_no_dedup_witness :
    (get_klines_data
        [⟨some 1, some 2, some 2, some 2, some 10, some 0⟩,
          ⟨some 1, some 2, some 2, some 2, some 20, some 0⟩] 100).Perm
      (([⟨some 1, some 2, some 2, some 2, some 10, some 0⟩,
          ⟨some 1, some 2, some 2, some 2, some 20, some 0⟩] :
        List RawCandle).filterMap coerceCandle) :=
  (get_klines_data_sorted_no_dedup
    [⟨some 1, some 2, some 2, some 2, some 10, some 0⟩,
      ⟨some 1, some 2, some 2, some 2, some 20, some 0⟩] 100).2 (by decide)

end Mkcoin
